import Mathlib

/-!
Verification of the Vertex AI provider adapters (`vertex-claude.js`, Adapter A,
and `vertex.js`, Adapter B).

The modules are shallowly embedded: the JavaScript values produced by
`JSON.parse` are modelled by the inductive type `Json`; JS member access,
truthiness, `String.prototype.trim`, `String.prototype.split('\n')`,
`JSON.parse`, `JSON.stringify` and the regex search used in the fallback
extraction path are modelled by executable Lean functions.  External effects
(the credential subprocess, the HTTP round trip, environment variables) are
modelled as explicit inputs in a `World` structure, and the functions return
the list of effects they perform together with their `Except` result, so that
ordering properties ("fails before any network request") are statable.

Modelling notes, kept deliberately explicit:
* JSON numeric literals are modelled as integers (`Int`); fraction/exponent
  forms are outside the modelled domain and make a line unparseable.  No claim
  depends on non-integer numerics.
* Object keys are kept in first-appearance order and a duplicate key replaces
  the earlier value in place, as `JSON.parse` does.
* `\uXXXX` escapes denoting lone surrogates are mapped to U+FFFD; surrogate
  pairs are not combined.  No claim depends on this corner.
* Floating point request parameters (temperature, top_p) are carried as exact
  decimals, since no claim computes with them.
-/

/-- JSON values as produced by `JSON.parse`.  Object fields are listed in
first-appearance order with duplicate keys already collapsed. -/
inductive Json where
  | null : Json
  | bool (b : Bool) : Json
  | num (n : Int) : Json
  | str (s : String) : Json
  | arr (elems : List Json) : Json
  | obj (fields : List (String × Json)) : Json
deriving Repr

/-- JavaScript truthiness of a JSON value: `null`, `false`, `0` and the empty
string are falsy; every array and object is truthy. -/
def jsTruthy : Json → Bool
  | .null => false
  | .bool b => b
  | .num n => n != 0
  | .str s => s != ""
  | .arr _ => true
  | .obj _ => true

/-- Truthiness of a possibly-undefined JavaScript value (`none` = undefined). -/
def jsTruthyO : Option Json → Bool
  | none => false
  | some j => jsTruthy j

/-- Whitespace characters removed by `String.prototype.trim` (ASCII whitespace,
NBSP, BOM and the Unicode line/paragraph separators). -/
def isJsWhitespace (c : Char) : Bool :=
  c = ' ' || c = '\t' || c = '\n' || c = '\r' || c = '\x0b' || c = '\x0c' ||
  c = '\u00A0' || c = '\uFEFF' || c = '\u2028' || c = '\u2029' || c = '\u3000'

/-- Model of `String.prototype.trim` on character lists. -/
def jsTrimChars (cs : List Char) : List Char :=
  ((cs.dropWhile isJsWhitespace).reverse.dropWhile isJsWhitespace).reverse

/-- Model of `String.prototype.trim`. -/
def jsTrim (s : String) : String :=
  String.mk (jsTrimChars s.data)

/-- Model of `String.prototype.split('\n')`: every newline separates a segment
and empty segments are kept. -/
def splitLines (cs : List Char) : List (List Char) :=
  cs.foldr
    (fun c acc =>
      match acc with
      | cur :: done => if c = '\n' then [] :: cur :: done else (c :: cur) :: done
      | [] => [[c]])
    [[]]

/-- Whitespace accepted between tokens by `JSON.parse` (JSON grammar). -/
def isJsonWs (c : Char) : Bool :=
  c = ' ' || c = '\t' || c = '\n' || c = '\r'

/-- Drop JSON inter-token whitespace. -/
def skipJsonWs (cs : List Char) : List Char :=
  cs.dropWhile isJsonWs

/-- Value of a hexadecimal digit, if any. -/
def hexVal? (c : Char) : Option Nat :=
  if '0' ≤ c ∧ c ≤ '9' then some (c.toNat - '0'.toNat)
  else if 'a' ≤ c ∧ c ≤ 'f' then some (c.toNat - 'a'.toNat + 10)
  else if 'A' ≤ c ∧ c ≤ 'F' then some (c.toNat - 'A'.toNat + 10)
  else none

/-- Decode a `\uXXXX` code unit; lone surrogates become U+FFFD. -/
def charOfCodeUnit (n : Nat) : Char :=
  if 0xd800 ≤ n ∧ n ≤ 0xdfff then '�' else Char.ofNat n

/-- Translation of a single-character JSON string escape. -/
def escapeChar? (c : Char) : Option Char :=
  if c = '"' then some '"'
  else if c = '\\' then some '\\'
  else if c = '/' then some '/'
  else if c = 'b' then some '\x08'
  else if c = 'f' then some '\x0c'
  else if c = 'n' then some '\n'
  else if c = 'r' then some '\r'
  else if c = 't' then some '\t'
  else none

/-- Insert a key/value pair into an object's field list the way `JSON.parse`
does: a duplicate key replaces the earlier value in place, otherwise the pair
is appended. -/
def insertField (fields : List (String × Json)) (k : String) (v : Json) :
    List (String × Json) :=
  match fields with
  | [] => [(k, v)]
  | (k', v') :: rest =>
      if k' = k then (k', v) :: rest else (k', v') :: insertField rest k v

/-- First field with the given key (keys are unique after parsing). -/
def lookupField (fields : List (String × Json)) (k : String) : Option Json :=
  match fields with
  | [] => none
  | (k', v) :: rest => if k' = k then some v else lookupField rest k

/-- Parse the body of a JSON string literal (after the opening quote), handling
escapes; returns the decoded characters and the remainder after the closing
quote. -/
def parseStringBody (fuel : Nat) (cs : List Char) :
    Except String (List Char × List Char) :=
  match fuel with
  | 0 => .error "out of fuel"
  | fuel + 1 =>
    match cs with
    | [] => .error "unterminated string"
    | '"' :: rest => .ok ([], rest)
    | '\\' :: rest =>
      match rest with
      | [] => .error "bad escape"
      | 'u' :: h1 :: h2 :: h3 :: h4 :: rest2 =>
        match hexVal? h1, hexVal? h2, hexVal? h3, hexVal? h4 with
        | some a, some b, some c, some d =>
          match parseStringBody fuel rest2 with
          | .ok (tail, rem) =>
              .ok (charOfCodeUnit (a * 4096 + b * 256 + c * 16 + d) :: tail, rem)
          | .error e => .error e
        | _, _, _, _ => .error "bad unicode escape"
      | e :: rest2 =>
        match escapeChar? e with
        | some c =>
          match parseStringBody fuel rest2 with
          | .ok (tail, rem) => .ok (c :: tail, rem)
          | .error err => .error err
        | none => .error "bad escape"
    | c :: rest =>
      if c.toNat < 32 then .error "control character in string"
      else
        match parseStringBody fuel rest with
        | .ok (tail, rem) => .ok (c :: tail, rem)
        | .error e => .error e

/-- Longest leading run of decimal digits. -/
def takeDigits (cs : List Char) : List Char × List Char :=
  match cs with
  | c :: rest =>
      if '0' ≤ c ∧ c ≤ '9' then
        let (ds, rem) := takeDigits rest
        (c :: ds, rem)
      else ([], cs)
  | [] => ([], [])

/-- Numeric value of a digit run. -/
def digitsToNat (ds : List Char) : Nat :=
  ds.foldl (fun acc c => acc * 10 + (c.toNat - '0'.toNat)) 0

/-- Parse a JSON integer literal (strict grammar: optional minus, then `0` or a
nonzero-led digit run).  Fraction/exponent forms are outside the modelled
domain. -/
def parseIntLit (cs : List Char) : Except String (Int × List Char) :=
  let (neg, cs') :=
    match cs with
    | '-' :: rest => (true, rest)
    | _ => (false, cs)
  match takeDigits cs' with
  | ([], _) => .error "bad number"
  | ('0' :: _ :: _, _) => .error "leading zero"
  | (ds, rem) =>
      let n : Int := Int.ofNat (digitsToNat ds)
      .ok (if neg then -n else n, rem)

/-- Expect a literal keyword continuation. -/
def dropLit (lit : List Char) (cs : List Char) : Option (List Char) :=
  match lit, cs with
  | [], _ => some cs
  | p :: ps, c :: rest => if c = p then dropLit ps rest else none
  | _ :: _, [] => none

mutual

/-- Parse one JSON value (after optional leading whitespace), returning the
value and the unconsumed remainder. -/
def parseValue (fuel : Nat) (cs : List Char) : Except String (Json × List Char) :=
  match fuel with
  | 0 => .error "out of fuel"
  | fuel + 1 =>
    match skipJsonWs cs with
    | [] => .error "unexpected end of input"
    | 'n' :: rest =>
        match dropLit ['u', 'l', 'l'] rest with
        | some rem => .ok (.null, rem)
        | none => .error "bad literal"
    | 't' :: rest =>
        match dropLit ['r', 'u', 'e'] rest with
        | some rem => .ok (.bool true, rem)
        | none => .error "bad literal"
    | 'f' :: rest =>
        match dropLit ['a', 'l', 's', 'e'] rest with
        | some rem => .ok (.bool false, rem)
        | none => .error "bad literal"
    | '"' :: rest =>
        match parseStringBody (rest.length + 1) rest with
        | .ok (body, rem) => .ok (.str (String.mk body), rem)
        | .error e => .error e
    | '[' :: rest =>
        (match skipJsonWs rest with
         | ']' :: rem => .ok (.arr [], rem)
         | _ => parseArrayItems fuel rest [])
    | c :: rest =>
        if c = Char.ofNat 123 then
          match skipJsonWs rest with
          | c2 :: rem =>
              if c2 = Char.ofNat 125 then .ok (.obj [], rem)
              else parseObjMembers fuel rest []
          | [] => .error "unterminated object"
        else if c = '-' ∨ ('0' ≤ c ∧ c ≤ '9') then
          match parseIntLit (c :: rest) with
          | .ok (n, rem) => .ok (.num n, rem)
          | .error e => .error e
        else .error "unexpected token"

/-- Parse the items of a non-empty JSON array (after the opening bracket). -/
def parseArrayItems (fuel : Nat) (cs : List Char) (acc : List Json) :
    Except String (Json × List Char) :=
  match fuel with
  | 0 => .error "out of fuel"
  | fuel + 1 =>
    match parseValue fuel cs with
    | .error e => .error e
    | .ok (v, rem) =>
      match skipJsonWs rem with
      | ',' :: rem2 => parseArrayItems fuel rem2 (acc ++ [v])
      | ']' :: rem2 => .ok (.arr (acc ++ [v]), rem2)
      | _ => .error "expected comma or bracket"

/-- Parse the members of a non-empty JSON object (after the opening brace). -/
def parseObjMembers (fuel : Nat) (cs : List Char) (acc : List (String × Json)) :
    Except String (Json × List Char) :=
  match fuel with
  | 0 => .error "out of fuel"
  | fuel + 1 =>
    match skipJsonWs cs with
    | '"' :: rest =>
      match parseStringBody (rest.length + 1) rest with
      | .error e => .error e
      | .ok (keyChars, rem) =>
        match skipJsonWs rem with
        | ':' :: rem2 =>
          match parseValue fuel rem2 with
          | .error e => .error e
          | .ok (v, rem3) =>
            let acc' := insertField acc (String.mk keyChars) v
            match skipJsonWs rem3 with
            | ',' :: rem4 => parseObjMembers fuel rem4 acc'
            | c :: rem4 =>
                if c = Char.ofNat 125 then .ok (.obj acc', rem4)
                else .error "expected comma or brace"
            | [] => .error "unterminated object"
        | _ => .error "expected colon"
    | _ => .error "expected key"

end

/-- Model of `JSON.parse` on a character list: parse one value and require only
whitespace afterwards. -/
def parseJsonChars (cs : List Char) : Except String Json :=
  match parseValue (4 * (cs.length + 1)) cs with
  | .ok (j, rest) =>
      if skipJsonWs rest = [] then .ok j else .error "unexpected trailing input"
  | .error e => .error e

/-- Model of `JSON.parse` on strings. -/
def parseJsonStr (s : String) : Except String Json :=
  parseJsonChars s.data

/-- Hex digit for serialization of control characters. -/
def hexDigit (n : Nat) : Char :=
  if n < 10 then Char.ofNat ('0'.toNat + n) else Char.ofNat ('a'.toNat + n - 10)

/-- Serialization of one character inside a JSON string, as `JSON.stringify`
does it: quote, backslash and the named control escapes, `\u00xx` for the
remaining control characters, everything else verbatim. -/
def stringifyChar (c : Char) : List Char :=
  if c = '"' then ['\\', '"']
  else if c = '\\' then ['\\', '\\']
  else if c = '\x08' then ['\\', 'b']
  else if c = '\x0c' then ['\\', 'f']
  else if c = '\n' then ['\\', 'n']
  else if c = '\r' then ['\\', 'r']
  else if c = '\t' then ['\\', 't']
  else if c.toNat < 32 then
    ['\\', 'u', '0', '0', hexDigit (c.toNat / 16), hexDigit (c.toNat % 16)]
  else [c]

/-- Serialize a JSON string literal including its quotes. -/
def stringifyStr (s : String) : List Char :=
  '"' :: s.data.foldr (fun c acc => stringifyChar c ++ acc) ['"']

mutual

/-- Model of `JSON.stringify` (compact form, no spacing), producing the
character list of the serialization. -/
def stringifyJson : Json → List Char
  | .null => "null".data
  | .bool true => "true".data
  | .bool false => "false".data
  | .num n => (toString n).data
  | .str s => stringifyStr s
  | .arr elems => '[' :: stringifyArrItems elems ++ [']']
  | .obj fields => Char.ofNat 123 :: stringifyObjFields fields ++ [Char.ofNat 125]

/-- Comma-separated serialization of array elements. -/
def stringifyArrItems : List Json → List Char
  | [] => []
  | [x] => stringifyJson x
  | x :: y :: rest => stringifyJson x ++ ',' :: stringifyArrItems (y :: rest)

/-- Comma-separated serialization of object members. -/
def stringifyObjFields : List (String × Json) → List Char
  | [] => []
  | [(k, v)] => stringifyStr k ++ ':' :: stringifyJson v
  | (k, v) :: m :: rest =>
      stringifyStr k ++ ':' :: stringifyJson v ++ ',' :: stringifyObjFields (m :: rest)

end

/-- The literal part of the fallback regex, the characters of `"text":"`. -/
def textPatLit : List Char :=
  ['"', 't', 'e', 'x', 't', '"', ':', '"']

/-- Longest leading run of non-quote characters, with the remainder. -/
def takeNonQuote (cs : List Char) : List Char × List Char :=
  match cs with
  | c :: rest =>
      if c = '"' then ([], cs)
      else
        let (run, tail) := takeNonQuote rest
        (c :: run, tail)
  | [] => ([], [])

/-- Attempt of the regex `"text":"([^"]+)"` at one position: the literal, then
a non-empty run of non-quote characters, then a closing quote; the capture is
the run. -/
def textCaptureAt (cs : List Char) : Option (List Char) :=
  match dropLit textPatLit cs with
  | some rest =>
      match takeNonQuote rest with
      | ([], _) => none
      | (run, '"' :: _) => some run
      | (_, _) => none
  | none => none

/-- Model of `str.match(/"text":"([^"]+)"/)`: the capture of the leftmost
match, scanning positions left to right. -/
def findTextCapture : List Char → Option (List Char)
  | [] => none
  | c :: rest =>
      match textCaptureAt (c :: rest) with
      | some cap => some cap
      | none => findTextCapture rest

/-- JavaScript member access `j.k` on a defined value: a TypeError on `null`,
the field on objects, `undefined` (`none`) on every other value. -/
def jsGetMem (j : Json) (k : String) : Except String (Option Json) :=
  match j with
  | .null => .error "TypeError: cannot read properties of null"
  | .obj fields => .ok (lookupField fields k)
  | _ => .ok none

/-- JavaScript member access on a possibly-undefined value. -/
def jsGetOpt (o : Option Json) (k : String) : Except String (Option Json) :=
  match o with
  | none => .error "TypeError: cannot read properties of undefined"
  | some j => jsGetMem j k

/-- The JSON value behind a defined JavaScript value (only used where
truthiness already guarantees definedness). -/
def jVal (o : Option Json) : Json :=
  o.getD .null

/-- Final fallback of the extraction chain (`vertex-claude.js` lines 158-170):
serialize the retained value, search it for a `"text":"…"` pattern and return
the first capture, else the whole serialization. -/
def extractFallback (lastValidJson : Json) : Except String Json :=
  let jsonStr := stringifyJson lastValidJson
  match findTextCapture jsonStr with
  | some cap => .ok (.str (String.mk cap))
  | none => .ok (.str (String.mk jsonStr))

/-- Branch (f) of the extraction chain: `lastValidJson.text`. -/
def extractF (lastValidJson : Json) : Except String Json :=
  match jsGetMem lastValidJson "text" with
  | .error e => .error e
  | .ok t => if jsTruthyO t then .ok (jVal t) else extractFallback lastValidJson

/-- Branch (e) of the extraction chain, exactly as in the source:
`lastValidJson.message && lastValidJson.message.content && Array.isArray(...)
&& length > 0 && [0].text`.  It is subsumed by branch (d) and unreachable. -/
def extractE2 (lastValidJson : Json) : Except String Json :=
  match jsGetMem lastValidJson "message" with
  | .error e => .error e
  | .ok message =>
    if jsTruthyO message then
      match jsGetOpt message "content" with
      | .error e => .error e
      | .ok mcontent =>
        if jsTruthyO mcontent then
          match mcontent with
          | some (.arr (e0 :: _)) =>
            (match jsGetMem e0 "text" with
             | .error e => .error e
             | .ok etext =>
               if jsTruthyO etext then .ok (jVal etext)
               else extractF lastValidJson)
          | _ => extractF lastValidJson
        else extractF lastValidJson
    else extractF lastValidJson

/-- Branch (d) of the extraction chain: `lastValidJson.message &&
lastValidJson.message.content`, returning `message.content` as-is. -/
def extractD (lastValidJson : Json) : Except String Json :=
  match jsGetMem lastValidJson "message" with
  | .error e => .error e
  | .ok message =>
    if jsTruthyO message then
      match jsGetOpt message "content" with
      | .error e => .error e
      | .ok mcontent =>
        if jsTruthyO mcontent then .ok (jVal mcontent)
        else extractE2 lastValidJson
    else extractE2 lastValidJson

/-- Branch (c) of the extraction chain: `lastValidJson.content &&
Array.isArray(lastValidJson.content) && lastValidJson.content.length > 0 &&
lastValidJson.content[0].text`.  Note that evaluating `content[0].text` throws
a TypeError when the first element is `null`. -/
def extractC (lastValidJson : Json) : Except String Json :=
  match jsGetMem lastValidJson "content" with
  | .error e => .error e
  | .ok content =>
    match content with
    | some (.arr (e0 :: _)) =>
      (match jsGetMem e0 "text" with
       | .error e => .error e
       | .ok etext =>
         if jsTruthyO etext then .ok (jVal etext)
         else extractD lastValidJson)
    | _ => extractD lastValidJson

/-- Branch (b) of the extraction chain: `lastValidJson.content &&
lastValidJson.content.text`. -/
def extractB (lastValidJson : Json) : Except String Json :=
  match jsGetMem lastValidJson "content" with
  | .error e => .error e
  | .ok content =>
    if jsTruthyO content then
      match jsGetOpt content "text" with
      | .error e => .error e
      | .ok ctext =>
        if jsTruthyO ctext then .ok (jVal ctext)
        else extractC lastValidJson
    else extractC lastValidJson

/-- The full extraction chain of `generateVertexClaudeText` (source lines
140-171), applied to the retained truthy JSON value; branch (a) is
`lastValidJson.delta && lastValidJson.delta.text`. -/
def extractText (lastValidJson : Json) : Except String Json :=
  match jsGetMem lastValidJson "delta" with
  | .error e => .error e
  | .ok delta =>
    if jsTruthyO delta then
      match jsGetOpt delta "text" with
      | .error e => .error e
      | .ok dtext =>
        if jsTruthyO dtext then .ok (jVal dtext)
        else extractB lastValidJson
    else extractB lastValidJson

/-- The per-line loop of the response handler (source lines 128-138): keep the
value of the last line that is non-blank after trimming and parses as JSON. -/
def lastValidJsonLoop (lines : List (List Char)) : Option Json :=
  lines.foldl
    (fun lastValidJson line =>
      if jsTrimChars line ≠ [] then
        match parseJsonChars line with
        | .ok jsonData => some jsonData
        | .error _ => lastValidJson
      else lastValidJson)
    none

/-- The retained JSON value for a response body: trim the body, split it on
newlines and run the per-line loop. -/
def lastValidJsonOf (responseText : String) : Option Json :=
  lastValidJsonLoop (splitLines (jsTrimChars responseText.data))

/-- The body of the inner `try` block of the response handler (source lines
121-176): run the loop, then either extract from a truthy retained value or
return the raw body. -/
def tryProcessResponse (responseText : String) : Except String Json :=
  match lastValidJsonOf responseText with
  | some j => if jsTruthy j then extractText j else .ok (.str responseText)
  | none => .ok (.str responseText)

/-- The complete response handling of `generateVertexClaudeText` including the
inner `catch` (source lines 177-181), which returns the raw body on any error
thrown during extraction. -/
def processResponse (responseText : String) : Json :=
  match tryProcessResponse responseText with
  | .ok v => v
  | .error _ => .str responseText

/-- Exact decimal `mantissa * 10 ^ (- exponent)`, carrying the floating point
request parameters without computing with them. -/
structure Decimal where
  mantissa : Int
  exponent : Nat
deriving DecidableEq, Repr

/-- Default model ID of Adapter A, `claude-3-7-sonnet@20250219`. -/
def DEFAULT_MODEL_A : String := "claude-3-7-sonnet@20250219"

/-- Default model ID of Adapter B, `gemini-2.5-pro-preview-05-06`. -/
def DEFAULT_MODEL_B : String := "gemini-2.5-pro-preview-05-06"

/-- Shared default temperature `0.2`. -/
def DEFAULT_TEMPERATURE : Decimal := ⟨2, 1⟩

/-- A conversation message as supplied by the caller. -/
structure Message where
  role : String
  content : String
deriving DecidableEq, Repr

/-- One content block of the outgoing Anthropic payload. -/
structure ContentBlock where
  type : String
  text : String
deriving DecidableEq, Repr

/-- One turn of the outgoing Anthropic payload. -/
structure PayloadMessage where
  role : String
  content : List ContentBlock
deriving DecidableEq, Repr

/-- The outgoing request payload of Adapter A (source lines 79-97). -/
structure Payload where
  anthropic_version : String
  messages : List PayloadMessage
  max_tokens : Int
  temperature : Decimal
  top_p : Decimal
  top_k : Nat
deriving DecidableEq, Repr

/-- Model of `Array.prototype.join` with a separator. -/
def jsJoin (sep : String) : List String → String
  | [] => ""
  | [s] => s
  | s :: t :: rest => s ++ sep ++ jsJoin sep (t :: rest)

/-- The message-conversion loop of Adapter A (source lines 63-73): the last
system message wins, user messages are collected in order, everything else is
ignored. -/
def collectPrompts (messages : List Message) : String × List String :=
  messages.foldl
    (fun acc message =>
      if message.role = "system" then (message.content, acc.2)
      else if message.role = "user" then (acc.1, acc.2 ++ [message.content])
      else acc)
    ("", [])

/-- Payload construction of Adapter A (source lines 63-97): one user turn with
one text block `system + "\n\n" + user` (the system part only when the system
prompt is truthy), `max_tokens` clamped by `Math.min(maxTokens, 64000)`. -/
def buildClaudePayload (messages : List Message) (maxTokens : Int)
    (temperature : Decimal) : Payload :=
  let prompts := collectPrompts messages
  let systemPrompt := prompts.1
  let userPrompt := jsJoin "\n\n" prompts.2
  { anthropic_version := "vertex-2023-10-16"
    messages := [{ role := "user"
                   content := [{ type := "text"
                                 text := (if systemPrompt = "" then ""
                                          else systemPrompt ++ "\n\n") ++ userPrompt }] }]
    max_tokens := min maxTokens 64000
    temperature := temperature
    top_p := ⟨95, 2⟩
    top_k := 40 }

/-- Outcome of the credential subprocess `gcloud auth print-access-token`. -/
structure ExecOutcome where
  exitCode : Int
  stdout : String
  stderr : String
deriving DecidableEq, Repr

/-- Model of `promisify(exec)`: the promise resolves with the standard output
when the command exits zero and rejects otherwise. -/
def execAsyncResult (o : ExecOutcome) : Except String String :=
  if o.exitCode = 0 then .ok o.stdout
  else .error ("Command failed: gcloud auth print-access-token\n" ++ o.stderr)

/-- Model of `getAccessToken` (source lines 21-28): trim the subprocess output
on success, wrap the failure message otherwise. -/
def getAccessToken (o : ExecOutcome) : Except String String :=
  match execAsyncResult o with
  | .ok stdout => .ok (jsTrim stdout)
  | .error e => .error ("Failed to get access token: " ++ e)

/-- The two environment variables read by the adapters (`none` = unset). -/
structure Env where
  VERTEX_PROJECT_ID : Option String
  VERTEX_LOCATION : Option String
deriving DecidableEq, Repr

/-- JavaScript falsiness of an environment variable: unset or empty. -/
def envFalsy : Option String → Bool
  | none => true
  | some s => s = ""

/-- The HTTP response delivered by `fetch` (`ok` is derived from the status). -/
structure HttpResponse where
  status : Nat
  body : String
deriving DecidableEq, Repr

/-- Model of `Response.ok`: status in the 2xx range. -/
def responseOk (r : HttpResponse) : Bool :=
  200 ≤ r.status ∧ r.status < 300

/-- The external inputs of one Adapter A call. -/
structure World where
  env : Env
  gcloudExec : ExecOutcome
  httpResponse : HttpResponse
deriving DecidableEq, Repr

/-- The observable side effects of one Adapter A call, in order. -/
inductive Effect where
  | execCmd (cmd : String)
  | httpPost (url : String) (bearer : String) (body : Payload)
deriving DecidableEq, Repr

/-- Caller-supplied parameters (`none` = argument omitted, so the destructuring
default applies). -/
structure GenParams where
  modelId : Option String
  temperature : Option Decimal
  messages : List Message
  maxTokens : Option Int
deriving DecidableEq, Repr

/-- The request URL of Adapter A. -/
def vertexClaudeUrl (location projectId modelId : String) : String :=
  "https://" ++ location ++ "-aiplatform.googleapis.com/v1/projects/" ++
    projectId ++ "/locations/" ++ location ++ "/publishers/anthropic/models/" ++
    modelId ++ ":streamRawPredict"

/-- Model of `generateVertexClaudeText` (source lines 42-189): environment
check, credential subprocess, HTTP POST, then response processing.  The first
component lists the performed effects in order; the second is the settled
promise. -/
def generateVertexClaudeText (w : World) (p : GenParams) :
    List Effect × Except String Json :=
  if envFalsy w.env.VERTEX_PROJECT_ID || envFalsy w.env.VERTEX_LOCATION then
    ([], .error "VERTEX_PROJECT_ID and VERTEX_LOCATION environment variables must be set")
  else
    let projectId := w.env.VERTEX_PROJECT_ID.getD ""
    let location := w.env.VERTEX_LOCATION.getD ""
    match getAccessToken w.gcloudExec with
    | .error e => ([.execCmd "gcloud auth print-access-token"], .error e)
    | .ok accessToken =>
      let payload := buildClaudePayload p.messages (p.maxTokens.getD 1024)
        (p.temperature.getD DEFAULT_TEMPERATURE)
      let url := vertexClaudeUrl location projectId (p.modelId.getD DEFAULT_MODEL_A)
      let effects := [Effect.execCmd "gcloud auth print-access-token",
                      Effect.httpPost url accessToken payload]
      if responseOk w.httpResponse then
        (effects, .ok (processResponse w.httpResponse.body))
      else
        (effects, .error ("Vertex AI API error (" ++ toString w.httpResponse.status ++
          "): " ++ w.httpResponse.body))

/-- Model of `streamVertexClaudeText` (source lines 195-198): a plain forwarder
to `generateVertexClaudeText`. -/
def streamVertexClaudeText (w : World) (p : GenParams) :
    List Effect × Except String Json :=
  generateVertexClaudeText w p

/-- The arguments Adapter B hands to the SDK's `generateText` (source lines
243-269): provider configuration with placeholder defaults, and the generation
arguments with `maxOutputTokens` passed through unchanged. -/
structure VertexSDKCallArgs where
  project : String
  location : String
  modelId : String
  messages : List Message
  temperature : Decimal
  maxOutputTokens : Option Int
deriving DecidableEq, Repr

/-- Model of `generateVertexText` of Adapter B up to the SDK call: it only
assembles the SDK arguments; generation itself is delegated. -/
def generateVertexText (env : Env) (p : GenParams) : VertexSDKCallArgs :=
  { project := if envFalsy env.VERTEX_PROJECT_ID then "default-project"
               else env.VERTEX_PROJECT_ID.getD ""
    location := if envFalsy env.VERTEX_LOCATION then "us-central1"
                else env.VERTEX_LOCATION.getD ""
    modelId := p.modelId.getD DEFAULT_MODEL_B
    temperature := p.temperature.getD DEFAULT_TEMPERATURE
    messages := p.messages
    maxOutputTokens := p.maxTokens }

/-- Pure field access: the field of an object, `none` on every other value
(spec-side counterpart of member access on non-null values). -/
def gf (j : Json) (k : String) : Option Json :=
  match j with
  | .obj fields => lookupField fields k
  | _ => none

/-- A field that is present and truthy, spec-side. -/
def truthyField (j : Json) (k : String) : Option Json :=
  match gf j k with
  | some v => if jsTruthy v then some v else none
  | none => none

/-- Strategy (a) of the extraction order: `delta.text`. -/
def stratA (j : Json) : Option (Except String Json) :=
  ((truthyField j "delta").bind (fun d => truthyField d "text")).map .ok

/-- Strategy (b): `content.text`. -/
def stratB (j : Json) : Option (Except String Json) :=
  ((truthyField j "content").bind (fun c => truthyField c "text")).map .ok

/-- Test for the JSON `null` value. -/
def Json.isNull : Json → Bool
  | .null => true
  | _ => false

/-- Test for a JSON string value (a JavaScript string result). -/
def Json.isStr : Json → Bool
  | .str _ => true
  | _ => false

/-- Strategy (c): `content[0].text` when `content` is a non-empty list; a
`null` first element makes the attempt abort with a TypeError. -/
def stratC (j : Json) : Option (Except String Json) :=
  match gf j "content" with
  | some (.arr (e0 :: _)) =>
      if e0.isNull then some (.error "TypeError: cannot read properties of null")
      else (truthyField e0 "text").map .ok
  | _ => none

/-- Strategy (d): `message.content`, returned as-is whenever truthy (also when
it is a list, which makes the source's list-shaped re-check unreachable). -/
def stratD (j : Json) : Option (Except String Json) :=
  ((truthyField j "message").bind (fun m => truthyField m "content")).map .ok

/-- Strategy (f): `text`. -/
def stratF (j : Json) : Option (Except String Json) :=
  (truthyField j "text").map .ok

/-- Strategy (g): the first capture of the regex search over the
serialization. -/
def stratG (j : Json) : Option (Except String Json) :=
  (findTextCapture (stringifyJson j)).map (fun cap => .ok (.str (String.mk cap)))

/-- Strategy (h): the whole serialization. -/
def stratH (j : Json) : Option (Except String Json) :=
  some (.ok (.str (String.mk (stringifyJson j))))

/-- First applicable entry of an ordered strategy list. -/
def firstStrat (l : List (Option (Except String Json))) : Except String Json :=
  match l with
  | [] => .ok .null
  | some r :: _ => r
  | none :: rest => firstStrat rest

/-- The extraction heuristic as an explicit ordered list of strategies tried
in sequence, the formulation the spec's design notes call for.  The order is
a, b, c, d (as-is), f, g, h; the source's branch (e) is unreachable and has no
strategy. -/
def extractStrategies (j : Json) : Except String Json :=
  firstStrat [stratA j, stratB j, stratC j, stratD j, stratF j, stratG j, stratH j]

/-- The string behind a JSON value, when it is one. -/
def strOf : Option Json → Option String
  | some (.str s) => some s
  | _ => none

/-- First hit of an ordered list of optional strings. -/
def firstStr (l : List (Option String)) : Option String :=
  match l with
  | [] => none
  | some s :: _ => some s
  | none :: rest => firstStr rest

/-- Modelled from the words of claim C2: extraction tries the paths
(a) `delta.text`, (b) `content.text`, (c) `content[0].text` when `content` is
a non-empty list, (d) `message.content` as text, (e) `message.content[0].text`
when `message.content` is a non-empty list, (f) `text`, (g) the first regex
capture, (h) the whole serialization, returning the first structurally valid
one (a path is structurally valid when it ends in a string). -/
def extractPerClaimC2 (j : Json) : Json :=
  let pathC : Option String :=
    match gf j "content" with
    | some (.arr (e0 :: _)) => strOf (gf e0 "text")
    | _ => none
  let pathE : Option String :=
    match (gf j "message").bind (fun m => gf m "content") with
    | some (.arr (e0 :: _)) => strOf (gf e0 "text")
    | _ => none
  match firstStr
      [strOf ((gf j "delta").bind (fun d => gf d "text")),
       strOf ((gf j "content").bind (fun c => gf c "text")),
       pathC,
       strOf ((gf j "message").bind (fun m => gf m "content")),
       pathE,
       strOf (gf j "text"),
       (findTextCapture (stringifyJson j)).map String.mk] with
  | some s => .str s
  | none => .str (String.mk (stringifyJson j))

/-- The parse of one line as the loop sees it: `none` when the line is blank
after trimming or fails to parse, the parsed value otherwise. -/
def lineParsed (line : List Char) : Option Json :=
  if jsTrimChars line ≠ [] then
    match parseJsonChars line with
    | .ok j => some j
    | .error _ => none
  else none

/-- Modelled from the words of claim C1: the value of the last line that
parses, after splitting the trimmed body on newlines, discarding blank lines
and parsing each remaining line independently. -/
def lastParsedLineValue (responseText : String) : Option Json :=
  ((splitLines (jsTrimChars responseText.data)).filterMap lineParsed).getLast?

/-- Spec-side view for claim C4: the content of the last system message. -/
def lastSystemContent (messages : List Message) : Option String :=
  ((messages.filter (fun m => m.role = "system")).map Message.content).getLast?

/-- Spec-side view for claim C4: the contents of all user messages, in order. -/
def userContents (messages : List Message) : List String :=
  (messages.filter (fun m => m.role = "user")).map Message.content

/-- The single-turn text claim C4 predicts, amended at the empty-system edge:
the system part and its separator are omitted when no system message is
present or the last one has empty content. -/
def claimC4Text (messages : List Message) : String :=
  (match lastSystemContent messages with
   | some s => if s = "" then "" else s ++ "\n\n"
   | none => "") ++ jsJoin "\n\n" (userContents messages)

/-! ## Helper lemmas -/

/-- The last element of a cons cell is the last element of the tail, with the
head as the default. -/
theorem getLast?_cons_getD {α : Type} (a : α) (l : List α) :
    (a :: l).getLast? = some (l.getLast?.getD a) := by
  cases l with
  | nil => simp
  | cons b m =>
    rw [List.getLast?_cons_cons]
    cases hm : (b :: m).getLast? with
    | none => exact absurd (List.getLast?_eq_none_iff.mp hm) (by simp)
    | some z => rfl

/-- A left fold that keeps every hit of a partial function ends at the last
hit, or at the accumulator when there is none. -/
theorem foldl_lastValid (g : List Char → Option Json) :
    ∀ (xs : List (List Char)) (acc : Option Json),
      xs.foldl (fun a x => match g x with | some j => some j | none => a) acc
        = (match (xs.filterMap g).getLast? with | some j => some j | none => acc) := by
  intro xs
  induction xs with
  | nil => intro acc; simp
  | cons x xs ih =>
    intro acc
    rw [List.foldl_cons, ih]
    cases hx : g x with
    | none =>
      simp only [List.filterMap_cons, hx]
    | some y =>
      simp only [List.filterMap_cons, hx]
      rw [getLast?_cons_getD]
      cases (xs.filterMap g).getLast? <;> rfl

/-- The per-line loop retains exactly the value of the last parsing line. -/
theorem lastValidJsonLoop_eq_filterMap (lines : List (List Char)) :
    lastValidJsonLoop lines
      = (match (lines.filterMap lineParsed).getLast? with
         | some j => some j
         | none => none) := by
  have hstep : (fun (a : Option Json) (line : List Char) =>
      if jsTrimChars line ≠ [] then
        match parseJsonChars line with
        | .ok jsonData => some jsonData
        | .error _ => a
      else a)
      = (fun a line => match lineParsed line with | some j => some j | none => a) := by
    funext a line
    by_cases h : jsTrimChars line ≠ []
    · simp only [lineParsed, if_pos h]
      cases parseJsonChars line <;> rfl
    · simp only [lineParsed, if_neg h]
  unfold lastValidJsonLoop
  rw [hstep, foldl_lastValid]

/-- Member access on a non-null value never throws and agrees with the pure
field lookup. -/
theorem jsGetMem_eq_gf (j : Json) (k : String) (h : ¬ j.isNull) :
    jsGetMem j k = .ok (gf j k) := by
  cases j <;> simp_all [jsGetMem, gf, Json.isNull]

/-- Truthy values are not null. -/
theorem not_isNull_of_truthy {j : Json} (h : jsTruthy j = true) : ¬ j.isNull := by
  cases j <;> simp_all [jsTruthy, Json.isNull]

/-- The serialization fallback agrees with strategies (g) and (h). -/
theorem extractFallback_eq (j : Json) :
    extractFallback j
      = (match stratG j with
         | some r => r
         | none => .ok (.str (String.mk (stringifyJson j)))) := by
  unfold extractFallback stratG
  cases h : findTextCapture (stringifyJson j) <;> simp [h]

/-- Branch (f) agrees with strategy (f), falling through to the fallback. -/
theorem extractF_eq (j : Json) (h : ¬ j.isNull) :
    extractF j = match stratF j with | some r => r | none => extractFallback j := by
  unfold extractF
  rw [jsGetMem_eq_gf j "text" h]
  cases ht : gf j "text" with
  | none => simp [stratF, truthyField, ht, jsTruthyO]
  | some t =>
    by_cases htt : jsTruthy t
    · simp [stratF, truthyField, ht, htt, jsTruthyO, jVal]
    · simp [stratF, truthyField, ht, htt, jsTruthyO]

/-- Branch (d) agrees with strategy (d); the source's dead branch (e) reduces
to branch (f) on the fall-through paths. -/
theorem extractD_eq (j : Json) (h : ¬ j.isNull) :
    extractD j = match stratD j with | some r => r | none => extractF j := by
  unfold extractD extractE2
  simp only [jsGetMem_eq_gf j "message" h]
  cases hm : gf j "message" with
  | none => simp [stratD, truthyField, hm, jsTruthyO]
  | some m =>
    by_cases hmt : jsTruthy m
    · have hmn : ¬ m.isNull := not_isNull_of_truthy hmt
      simp only [hm, jsTruthyO, hmt, if_true, if_pos]
      simp only [show jsGetOpt (some m) "content" = Except.ok (gf m "content") from by
        simp [jsGetOpt, jsGetMem_eq_gf m "content" hmn]]
      cases hc : gf m "content" with
      | none => simp [stratD, truthyField, hm, hmt, hc, jsTruthyO]
      | some c =>
        by_cases hct : jsTruthy c
        · simp [stratD, truthyField, hm, hmt, hc, hct, jsTruthyO, jVal]
        · simp [stratD, truthyField, hm, hmt, hc, hct, jsTruthyO]
    · simp [stratD, truthyField, hm, hmt, jsTruthyO]

/-- Branch (c) agrees with strategy (c), including the TypeError on a null
first element. -/
theorem extractC_eq (j : Json) (h : ¬ j.isNull) :
    extractC j = match stratC j with | some r => r | none => extractD j := by
  unfold extractC
  simp only [jsGetMem_eq_gf j "content" h]
  cases hc : gf j "content" with
  | none => simp [stratC, hc]
  | some c =>
    cases c with
    | null => simp [stratC, hc]
    | bool b => simp [stratC, hc]
    | num n => simp [stratC, hc]
    | str s => simp [stratC, hc]
    | obj fields => simp [stratC, hc]
    | arr elems =>
      cases elems with
      | nil => simp [stratC, hc]
      | cons e0 rest =>
        by_cases he : e0.isNull
        · have he' : e0 = .null := by cases e0 <;> simp_all [Json.isNull]
          subst he'
          simp [stratC, hc, jsGetMem, Json.isNull]
        · simp only [jsGetMem_eq_gf e0 "text" he]
          cases ht : gf e0 "text" with
          | none => simp [stratC, hc, he, truthyField, ht, jsTruthyO]
          | some t =>
            by_cases htt : jsTruthy t
            · simp [stratC, hc, he, truthyField, ht, htt, jsTruthyO, jVal]
            · simp [stratC, hc, he, truthyField, ht, htt, jsTruthyO]

/-- Branch (b) agrees with strategy (b). -/
theorem extractB_eq (j : Json) (h : ¬ j.isNull) :
    extractB j = match stratB j with | some r => r | none => extractC j := by
  unfold extractB
  simp only [jsGetMem_eq_gf j "content" h]
  cases hc : gf j "content" with
  | none => simp [stratB, truthyField, hc, jsTruthyO]
  | some c =>
    by_cases hct : jsTruthy c
    · have hcn : ¬ c.isNull := not_isNull_of_truthy hct
      simp only [hc, jsTruthyO, hct, if_true, if_pos]
      simp only [show jsGetOpt (some c) "text" = Except.ok (gf c "text") from by
        simp [jsGetOpt, jsGetMem_eq_gf c "text" hcn]]
      cases ht : gf c "text" with
      | none => simp [stratB, truthyField, hc, hct, ht, jsTruthyO]
      | some t =>
        by_cases htt : jsTruthy t
        · simp [stratB, truthyField, hc, hct, ht, htt, jsTruthyO, jVal]
        · simp [stratB, truthyField, hc, hct, ht, htt, jsTruthyO]
    · simp [stratB, truthyField, hc, hct, jsTruthyO]

/-- The head of the chain agrees with strategy (a). -/
theorem extractText_eq (j : Json) (h : ¬ j.isNull) :
    extractText j = match stratA j with | some r => r | none => extractB j := by
  unfold extractText
  simp only [jsGetMem_eq_gf j "delta" h]
  cases hd : gf j "delta" with
  | none => simp [stratA, truthyField, hd, jsTruthyO]
  | some d =>
    by_cases hdt : jsTruthy d
    · have hdn : ¬ d.isNull := not_isNull_of_truthy hdt
      simp only [hd, jsTruthyO, hdt, if_true, if_pos]
      simp only [show jsGetOpt (some d) "text" = Except.ok (gf d "text") from by
        simp [jsGetOpt, jsGetMem_eq_gf d "text" hdn]]
      cases ht : gf d "text" with
      | none => simp [stratA, truthyField, hd, hdt, ht, jsTruthyO]
      | some t =>
        by_cases htt : jsTruthy t
        · simp [stratA, truthyField, hd, hdt, ht, htt, jsTruthyO, jVal]
        · simp [stratA, truthyField, hd, hdt, ht, htt, jsTruthyO]
    · simp [stratA, truthyField, hd, hdt, jsTruthyO]

/-- The message-conversion fold separates the last system prompt from the
user messages in order. -/
theorem collectPrompts_foldl_eq :
    ∀ (messages : List Message) (sp : String) (ums : List String),
      messages.foldl
        (fun acc message =>
          if message.role = "system" then (message.content, acc.2)
          else if message.role = "user" then (acc.1, acc.2 ++ [message.content])
          else acc)
        (sp, ums)
      = ((lastSystemContent messages).getD sp, ums ++ userContents messages) := by
  intro messages
  induction messages with
  | nil => intro sp ums; simp [lastSystemContent, userContents]
  | cons m rest ih =>
    intro sp ums
    rw [List.foldl_cons]
    by_cases hs : m.role = "system"
    · simp only [hs, if_true, if_pos]
      rw [ih]
      have h1 : lastSystemContent (m :: rest)
          = some ((lastSystemContent rest).getD m.content) := by
        unfold lastSystemContent
        have hf : (m :: rest).filter (fun x => x.role = "system")
            = m :: rest.filter (fun x => x.role = "system") := by
          simp [List.filter_cons, hs]
        rw [hf, List.map_cons, getLast?_cons_getD]
      have h2 : userContents (m :: rest) = userContents rest := by
        unfold userContents
        simp [List.filter_cons, hs]
      rw [h1, h2, Option.getD_some]
    · by_cases hu : m.role = "user"
      · simp only [hs, hu, if_false, if_true, if_neg, if_pos]
        rw [ih]
        have h1 : lastSystemContent (m :: rest) = lastSystemContent rest := by
          unfold lastSystemContent
          simp [List.filter_cons, hs]
        have h2 : userContents (m :: rest) = m.content :: userContents rest := by
          unfold userContents
          simp [List.filter_cons, hu]
        rw [h1, h2]
        simp
      · simp only [hs, hu, if_false, if_neg]
        rw [ih]
        have h1 : lastSystemContent (m :: rest) = lastSystemContent rest := by
          unfold lastSystemContent
          simp [List.filter_cons, hs]
        have h2 : userContents (m :: rest) = userContents rest := by
          unfold userContents
          simp [List.filter_cons, hu]
        rw [h1, h2]

/-! ## Claim theorems -/

/-- Claim C1: for every response body, the body is split on newlines, blank
lines are discarded, each remaining line is parsed as JSON independently,
failing lines are skipped, and the value retained for extraction is the one
from the last line that parsed successfully (so interspersed unparseable
lines do not affect the result); in particular the spec's two-delta example
yields the text of the last line. -/
theorem claim_C1 :
    (∀ responseText : String,
      lastValidJsonOf responseText = lastParsedLineValue responseText) ∧
    processResponse "\x7b\"delta\":\x7b\"text\":\"4\"\x7d\x7d\n\x7b\"delta\":\x7b\"text\":\"4!\"\x7d\x7d"
      = Json.str "4!" := by
  constructor
  · intro responseText
    unfold lastValidJsonOf lastParsedLineValue
    rw [lastValidJsonLoop_eq_filterMap]
    cases ((splitLines (jsTrimChars responseText.data)).filterMap lineParsed).getLast? <;> rfl
  · rfl

/-- Claim C2, counterexample to the claim as stated: for the retained value
with `message.content` a non-empty list, the claim's priority order (where
path (d) is `message.content` "as text" and path (e) serves the list shape)
predicts the string `"hi"`, but the code returns the list itself, because the
source's branch (d) fires on any truthy `message.content` and makes branch
(e) unreachable. -/
theorem claim_C2_counterexample :
    lastValidJsonOf "\x7b\"message\":\x7b\"content\":[\x7b\"text\":\"hi\"\x7d]\x7d\x7d"
      = some (Json.obj [("message",
          Json.obj [("content", Json.arr [Json.obj [("text", Json.str "hi")]])])]) ∧
    processResponse "\x7b\"message\":\x7b\"content\":[\x7b\"text\":\"hi\"\x7d]\x7d\x7d"
      = Json.arr [Json.obj [("text", Json.str "hi")]] ∧
    extractPerClaimC2 (Json.obj [("message",
        Json.obj [("content", Json.arr [Json.obj [("text", Json.str "hi")]])])])
      = Json.str "hi" ∧
    Json.arr [Json.obj [("text", Json.str "hi")]] ≠ Json.str "hi" := by
  refine ⟨rfl, rfl, rfl, ?_⟩
  simp

/-- Claim C2, as amended: on every truthy retained value, the source's
nested-conditional extraction chain equals the explicit ordered strategy list
a, b, c, d (with `message.content` returned as-is, making the source's branch
(e) unreachable), f, g, h, where conditions are JavaScript truthiness and a
null first list element in (c) aborts with a TypeError. -/
theorem claim_C2 (j : Json) (h : jsTruthy j = true) :
    extractText j = extractStrategies j := by
  have hn : ¬ j.isNull := not_isNull_of_truthy h
  rw [extractText_eq j hn]
  unfold extractStrategies
  cases ha : stratA j with
  | some r => simp [firstStrat, ha]
  | none =>
    simp only [ha, firstStrat]
    rw [extractB_eq j hn]
    cases hb : stratB j with
    | some r => simp [firstStrat, hb]
    | none =>
      simp only [hb, firstStrat]
      rw [extractC_eq j hn]
      cases hc : stratC j with
      | some r => simp [firstStrat, hc]
      | none =>
        simp only [hc, firstStrat]
        rw [extractD_eq j hn]
        cases hd : stratD j with
        | some r => simp [firstStrat, hd]
        | none =>
          simp only [hd, firstStrat]
          rw [extractF_eq j hn]
          cases hf : stratF j with
          | some r => simp [firstStrat, hf]
          | none =>
            simp only [hf, firstStrat]
            rw [extractFallback_eq j]
            cases hg : stratG j with
            | some r => simp [firstStrat, hg, stratH]
            | none => simp [firstStrat, hg, stratH]

/-- Claim C2, witness: the amended equality holds at a concrete truthy
value. -/
theorem claim_C2_witness :
    jsTruthy (Json.obj [("text", Json.str "ok")]) = true ∧
    extractText (Json.obj [("text", Json.str "ok")])
      = extractStrategies (Json.obj [("text", Json.str "ok")]) :=
  ⟨rfl, claim_C2 _ rfl⟩

/-- Claim C3, counterexample to the claim as stated: the extraction step does
not always produce a string — for the well-formed body whose `text` field
holds the number 5, branch (f) returns that number. -/
theorem claim_C3_counterexample :
    processResponse "\x7b\"text\":5\x7d" = Json.num 5 ∧
    (processResponse "\x7b\"text\":5\x7d").isStr = false := ⟨rfl, rfl⟩

/-- Claim C3, as amended: for every response body, the extraction step always
evaluates to some value and never makes the call fail — once the environment
check, the credential subprocess and the HTTP round trip succeed, the call
settles successfully with the processed response, whatever the body
contains. -/
theorem claim_C3 (w : World) (p : GenParams)
    (h1 : envFalsy w.env.VERTEX_PROJECT_ID = false)
    (h2 : envFalsy w.env.VERTEX_LOCATION = false)
    (h3 : w.gcloudExec.exitCode = 0)
    (h4 : responseOk w.httpResponse = true) :
    (generateVertexClaudeText w p).2
      = .ok (processResponse w.httpResponse.body) := by
  simp [generateVertexClaudeText, getAccessToken, execAsyncResult, h1, h2, h3, h4]

/-- Claim C3, witness: a concrete successful call with a malformed body still
settles successfully. -/
theorem claim_C3_witness :
    (generateVertexClaudeText
        ⟨⟨some "proj", some "loc"⟩, ⟨0, "tok\n", ""⟩, ⟨200, "not json"⟩⟩
        ⟨none, none, [], none⟩).2
      = .ok (processResponse "not json") :=
  claim_C3 _ _ (by decide) (by decide) (by decide) (by decide)

/-- Claim C4, counterexample to the claim as stated: with a present system
message of empty content, the code omits both the system part and its
separator, while the claim's formula (omission only when no system message is
present) predicts a leading blank line. -/
theorem claim_C4_counterexample :
    (buildClaudePayload [⟨"system", ""⟩, ⟨"user", "2+2?"⟩] 1024
        DEFAULT_TEMPERATURE).messages
      = [{ role := "user", content := [{ type := "text", text := "2+2?" }] }] ∧
    ("2+2?" : String) ≠ "" ++ "\n\n" ++ "2+2?" := by
  refine ⟨rfl, ?_⟩
  decide

/-- Claim C4, as amended: for every message sequence, the outgoing request has
exactly one user turn with one text block whose text is the last system
message's content, a blank line, and the user messages joined by blank lines —
with the system part and its separator omitted when no system message is
present or the last one has empty content; assistant messages are ignored.
The spec's concrete example is included. -/
theorem claim_C4 :
    (∀ (messages : List Message) (maxTokens : Int) (temperature : Decimal),
      (buildClaudePayload messages maxTokens temperature).messages
        = [{ role := "user",
             content := [{ type := "text", text := claimC4Text messages }] }]) ∧
    (buildClaudePayload [⟨"system", "Be terse."⟩, ⟨"user", "2+2?"⟩] 1024
        DEFAULT_TEMPERATURE).messages
      = [{ role := "user",
           content := [{ type := "text", text := "Be terse.\n\n2+2?" }] }] := by
  constructor
  · intro messages maxTokens temperature
    unfold buildClaudePayload collectPrompts
    rw [collectPrompts_foldl_eq]
    cases h : lastSystemContent messages with
    | none => simp [claimC4Text, h]
    | some s =>
      by_cases hs : s = "" <;> simp [claimC4Text, h, hs]
  · rfl

/-- Claim C5: Adapter A's payload carries `max_tokens = min(maxTokens, 64000)`
— any request above 64000 is clamped to exactly 64000 — while Adapter B
passes `maxTokens` through to the SDK unclamped. -/
theorem claim_C5 (messages : List Message) (maxTokens : Int) (temperature : Decimal)
    (env : Env) (p : GenParams) :
    (buildClaudePayload messages maxTokens temperature).max_tokens
      = min maxTokens 64000 ∧
    (64000 < maxTokens →
      (buildClaudePayload messages maxTokens temperature).max_tokens = 64000) ∧
    (generateVertexText env p).maxOutputTokens = p.maxTokens := by
  refine ⟨rfl, fun h => ?_, rfl⟩
  show min maxTokens 64000 = 64000
  exact min_eq_right h.le

/-- Claim C5, witness: a request of 70000 tokens is clamped to 64000 by
Adapter A and passed through by Adapter B. -/
theorem claim_C5_witness :
    (64000 : Int) < 70000 ∧
    (buildClaudePayload [] 70000 DEFAULT_TEMPERATURE).max_tokens = 64000 ∧
    (generateVertexText ⟨none, none⟩ ⟨none, none, [], some 70000⟩).maxOutputTokens
      = some 70000 :=
  ⟨by decide,
   (claim_C5 [] 70000 DEFAULT_TEMPERATURE ⟨none, none⟩
     ⟨none, none, [], some 70000⟩).2.1 (by decide),
   (claim_C5 [] 70000 DEFAULT_TEMPERATURE ⟨none, none⟩
     ⟨none, none, [], some 70000⟩).2.2⟩

/-- Claim C6: whenever `VERTEX_PROJECT_ID` or `VERTEX_LOCATION` is unset or
empty, the Adapter A call fails with the configuration error and performs no
effect at all — neither the credential subprocess nor any network request. -/
theorem claim_C6 (w : World) (p : GenParams)
    (h : w.env.VERTEX_PROJECT_ID = none ∨ w.env.VERTEX_PROJECT_ID = some "" ∨
         w.env.VERTEX_LOCATION = none ∨ w.env.VERTEX_LOCATION = some "") :
    generateVertexClaudeText w p
      = ([], .error "VERTEX_PROJECT_ID and VERTEX_LOCATION environment variables must be set") := by
  unfold generateVertexClaudeText
  rcases h with h | h | h | h <;> simp [envFalsy, h]

/-- Claim C6, witness: a concrete call with the project variable unset fails
with the configuration error and an empty effect list. -/
theorem claim_C6_witness :
    generateVertexClaudeText ⟨⟨none, some "loc"⟩, ⟨0, "", ""⟩, ⟨200, ""⟩⟩
        ⟨none, none, [], none⟩
      = ([], .error "VERTEX_PROJECT_ID and VERTEX_LOCATION environment variables must be set") :=
  claim_C6 _ _ (Or.inl rfl)

/-- Claim C7, counterexample to the claim as stated: a subprocess that exits
zero with empty output does not produce an error — `getAccessToken` returns
the empty token instead of failing. -/
theorem claim_C7_counterexample :
    getAccessToken ⟨0, "", ""⟩ = .ok "" := rfl

/-- Claim C7, as amended: `getAccessToken` fails with the wrapped error
exactly when the subprocess exits non-zero, and otherwise returns the
subprocess output with surrounding whitespace trimmed (even when that leaves
the empty string). -/
theorem claim_C7 (o : ExecOutcome) :
    (o.exitCode ≠ 0 →
      getAccessToken o = .error ("Failed to get access token: " ++
        ("Command failed: gcloud auth print-access-token\n" ++ o.stderr))) ∧
    (o.exitCode = 0 → getAccessToken o = .ok (jsTrim o.stdout)) := by
  constructor
  · intro h; simp [getAccessToken, execAsyncResult, h]
  · intro h; simp [getAccessToken, execAsyncResult, h]

/-- Claim C7, witness: a failing subprocess yields the wrapped error and a
successful one yields the trimmed token. -/
theorem claim_C7_witness :
    getAccessToken ⟨1, "", "boom"⟩
      = .error ("Failed to get access token: " ++
          ("Command failed: gcloud auth print-access-token\n" ++ "boom")) ∧
    getAccessToken ⟨0, "  tok \n", ""⟩ = .ok "tok" := by
  constructor
  · exact (claim_C7 ⟨1, "", "boom"⟩).1 (by decide)
  · have h := (claim_C7 ⟨0, "  tok \n", ""⟩).2 rfl
    rw [h]
    rfl

/-- Claim C8: for every response body in which no line parses as JSON, the
extraction returns the raw body unchanged; in particular the body
`not json` yields exactly the string `not json`. -/
theorem claim_C8 :
    (∀ responseText : String, lastValidJsonOf responseText = none →
        processResponse responseText = .str responseText) ∧
    processResponse "not json" = .str "not json" := by
  constructor
  · intro rt h
    simp [processResponse, tryProcessResponse, h]
  · rfl

/-- Claim C8, witness: a concrete unparseable body is returned verbatim. -/
theorem claim_C8_witness :
    lastValidJsonOf "no json here" = none ∧
    processResponse "no json here" = Json.str "no json here" :=
  ⟨rfl, claim_C8.1 "no json here" rfl⟩

/-- Claim C9: for every world and parameters, `streamVertexClaudeText` returns
exactly the result of `generateVertexClaudeText` — a single materialized
value, failing exactly when the generation call fails. -/
theorem claim_C9 : ∀ (w : World) (p : GenParams),
    streamVertexClaudeText w p = generateVertexClaudeText w p := fun _ _ => rfl

/-- Claim C10: whenever the retained value of the last parsing line is falsy,
the extraction ignores it and returns the entire raw body; and the falsy JSON
values are exactly `null`, `false`, `0` and the empty string. -/
theorem claim_C10 :
    (∀ (responseText : String) (j : Json),
      lastValidJsonOf responseText = some j → jsTruthy j = false →
      processResponse responseText = .str responseText) ∧
    (∀ j : Json, jsTruthy j = false ↔
      (j = .null ∨ j = .bool false ∨ j = .num 0 ∨ j = .str "")) := by
  constructor
  · intro rt j h hf
    simp [processResponse, tryProcessResponse, h, hf]
  · intro j
    cases j <;> simp [jsTruthy]

/-- Claim C10, witness: the body `null` parses to the falsy value `null` and
the raw body is returned. -/
theorem claim_C10_witness :
    lastValidJsonOf "null" = some Json.null ∧ jsTruthy Json.null = false ∧
    processResponse "null" = Json.str "null" :=
  ⟨rfl, rfl, claim_C10.1 "null" Json.null rfl rfl⟩
